import Mathlib

/-!
Verification development for the quiz-analysis relay server (src/index.js).

The server exposes one endpoint, `POST /api/analyze-answers`.  The source file
contains an original handler and a revised handler; the revised one (the one
carrying the response-normalization logic `parseModelJson` and the shape
coercion, and the `wrongAnswers = []` destructuring default) supersedes the
original ("keep everything above unchanged"), and is the code modelled here.

The embedding models:
  * JSON values (`Json`) and a faithful model of JavaScript `JSON.parse`
    (`jsonParse`), including its whitespace, string-escape, number and
    trailing-garbage rules;
  * the fenced-block extraction regex `/\x60\x60\x60(?:json)?\s*([\s\S]*?)\x60\x60\x60/i`
    (`fenceInner`), the first-`\x7b`-to-last-`\x7d` slice (`braceSlice`) and the
    whole of `parseModelJson`;
  * the shape coercion of lines 183-186 (`coerceShape` / `coerceFields`),
    including the JavaScript semantics of property assignment on non-object
    values (a TypeError on `null`, a silent no-op on primitives in sloppy
    mode, and properties dropped by JSON serialization on arrays);
  * the prompt builder (`wrongAnswersText`, `buildPrompt`) and the request
    handler's validation and control flow (`handleRequest`).
-/

/-- JSON values as produced by `JSON.parse`.  Numbers are modelled as
rationals; object fields are kept as an association list in JavaScript
insertion order with unique keys (later duplicate keys overwrite earlier
ones in place, as `JSON.parse` does). -/
inductive Json where
  | null : Json
  | bool : Bool → Json
  | num : Rat → Json
  | str : String → Json
  | arr : List Json → Json
  | obj : List (String × Json) → Json

/-- Reading a property of a JavaScript object: the value at the first
occurrence of the key, if any. -/
def jLookup : List (String × Json) → String → Option Json
  | [], _ => none
  | (a, b) :: t, k => if a = k then some b else jLookup t k

/-- Setting a property of a JavaScript object: if the key is present its
value is replaced in place (the key keeps its position), otherwise the
key/value pair is appended at the end, as JavaScript property assignment
does for non-integer-like string keys. -/
def objInsert : List (String × Json) → String → Json → List (String × Json)
  | [], k, v => [(k, v)]
  | (a, b) :: t, k, v => if a = k then (a, v) :: t else (a, b) :: objInsert t k v

/-- JSON whitespace accepted by `JSON.parse` between tokens: space, tab,
line feed, carriage return (RFC 8259). -/
def isJsonWS (c : Char) : Bool :=
  c = ' ' || c = '\t' || c = '\n' || c = '\r'

/-- Skip JSON whitespace. -/
def skipWS (l : List Char) : List Char := l.dropWhile isJsonWS

/-- Numeric value of a decimal digit character. -/
def digitVal (c : Char) : Nat := c.toNat - '0'.toNat

/-- Take a maximal run of decimal digits from the front of the input,
returning their values and the rest. -/
def takeDigits : List Char → List Nat × List Char
  | [] => ([], [])
  | c :: rest =>
    if c.isDigit then
      let (ds, r) := takeDigits rest
      (digitVal c :: ds, r)
    else ([], c :: rest)

/-- Value of a big-endian digit list. -/
def digitsToNat (ds : List Nat) : Nat := ds.foldl (fun a d => a * 10 + d) 0

/-- Numeric value of a JSON number literal with sign, integer digits,
fraction digits and a signed decimal exponent. -/
def mkNum (neg : Bool) (ip : Nat) (fds : List Nat) (eneg : Bool) (emag : Nat) : Rat :=
  let mag : Rat := (ip : Rat) + (digitsToNat fds : Rat) / ((10 : Rat) ^ fds.length)
  let signed : Rat := if neg then -mag else mag
  let e : Int := if eneg then -(emag : Int) else (emag : Int)
  signed * (10 : Rat) ^ e

/-- Parse the optional fraction part of a JSON number (a dot must be
followed by at least one digit). -/
def parseFrac : List Char → Option (List Nat × List Char)
  | '.' :: r =>
    match takeDigits r with
    | ([], _) => none
    | (fds, r2) => some (fds, r2)
  | l => some (([] : List Nat), l)

/-- Parse the optional exponent part of a JSON number. -/
def parseExp : List Char → Option (Bool × Nat × List Char)
  | [] => some (false, 0, [])
  | c :: r =>
    if c = 'e' || c = 'E' then
      let (eneg, r2) : Bool × List Char :=
        match r with
        | '+' :: r3 => (false, r3)
        | '-' :: r3 => (true, r3)
        | _ => (false, r)
      match takeDigits r2 with
      | ([], _) => none
      | (eds, r3) => some (true, digitsToNat eds, r3) |>.map (fun (_, m, rest) => (eneg, m, rest))
    else some (false, 0, c :: r)

/-- Parse a JSON number literal: `-? (0 | [1-9][0-9]*) frac? exp?`; a
leading zero may not be followed by further integer digits. -/
def parseNumber (l : List Char) : Option (Json × List Char) :=
  let (neg, l1) : Bool × List Char :=
    match l with
    | '-' :: r => (true, r)
    | _ => (false, l)
  match takeDigits l1 with
  | ([], _) => none
  | (ds, l2) =>
    if 1 < ds.length ∧ ds.head? = some 0 then none
    else
      match parseFrac l2 with
      | none => none
      | some (fds, l3) =>
        match parseExp l3 with
        | none => none
        | some (eneg, emag, l4) =>
          some (.num (mkNum neg (digitsToNat ds) fds eneg emag), l4)

/-- Hexadecimal value of a character, if it is a hex digit. -/
def hexVal (c : Char) : Option Nat :=
  if c.isDigit then some (digitVal c)
  else if 'a' ≤ c ∧ c ≤ 'f' then some (c.toNat - 'a'.toNat + 10)
  else if 'A' ≤ c ∧ c ≤ 'F' then some (c.toNat - 'A'.toNat + 10)
  else none

/-- Value of four hex digits. -/
def hex4 (a b c d : Char) : Option Nat := do
  let x1 ← hexVal a
  let x2 ← hexVal b
  let x3 ← hexVal c
  let x4 ← hexVal d
  some (((x1 * 16 + x2) * 16 + x3) * 16 + x4)

/-- Unicode scalar for a code point; JavaScript strings can hold lone
surrogates, which Unicode scalar values (Lean `Char`) cannot — those are
approximated by U+FFFD.  No claim depends on surrogate contents. -/
def scalarOfNat (n : Nat) : Char :=
  if h : n.isValidChar then Char.ofNatAux n h else '�'

/-- Parse the body of a JSON string after the opening quote, accumulating
decoded characters.  Unescaped control characters are rejected; the
escapes are exactly those of `JSON.parse`. -/
def parseStringBody : Nat → List Char → List Char → Option (String × List Char)
  | 0, _, _ => none
  | _, [], _ => none
  | f + 1, c :: rest, acc =>
    if c = '"' then some (String.mk acc.reverse, rest)
    else if c.toNat < 0x20 then none
    else if c = '\\' then
      match rest with
      | '"' :: r => parseStringBody f r ('"' :: acc)
      | '\\' :: r => parseStringBody f r ('\\' :: acc)
      | '/' :: r => parseStringBody f r ('/' :: acc)
      | 'b' :: r => parseStringBody f r ('\x08' :: acc)
      | 'f' :: r => parseStringBody f r ('\x0c' :: acc)
      | 'n' :: r => parseStringBody f r ('\n' :: acc)
      | 'r' :: r => parseStringBody f r ('\r' :: acc)
      | 't' :: r => parseStringBody f r ('\t' :: acc)
      | 'u' :: h1 :: h2 :: h3 :: h4 :: r =>
        match hex4 h1 h2 h3 h4 with
        | none => none
        | some n =>
          if 0xd800 ≤ n ∧ n ≤ 0xdbff then
            match r with
            | '\\' :: 'u' :: g1 :: g2 :: g3 :: g4 :: r2 =>
              match hex4 g1 g2 g3 g4 with
              | none => none
              | some m =>
                if 0xdc00 ≤ m ∧ m ≤ 0xdfff then
                  parseStringBody f r2
                    (scalarOfNat (0x10000 + (n - 0xd800) * 0x400 + (m - 0xdc00)) :: acc)
                else parseStringBody f r ('�' :: acc)
            | _ => parseStringBody f r ('�' :: acc)
          else parseStringBody f r (scalarOfNat n :: acc)
      | _ => none
    else parseStringBody f rest (c :: acc)

mutual

/-- Parse one JSON value (after optional leading whitespace), with fuel. -/
def parseVal : Nat → List Char → Option (Json × List Char)
  | 0, _ => none
  | f + 1, l =>
    match skipWS l with
    | [] => none
    | '\x7b' :: r =>
      (match skipWS r with
       | '\x7d' :: r2 => some (.obj [], r2)
       | r2 => parseMembers f r2 [])
    | '[' :: r =>
      (match skipWS r with
       | ']' :: r2 => some (.arr [], r2)
       | r2 => parseElems f r2 [])
    | '"' :: r => (parseStringBody (r.length + 1) r []).map (fun (s, r2) => (.str s, r2))
    | 't' :: 'r' :: 'u' :: 'e' :: r => some (.bool true, r)
    | 'f' :: 'a' :: 'l' :: 's' :: 'e' :: r => some (.bool false, r)
    | 'n' :: 'u' :: 'l' :: 'l' :: r => some (.null, r)
    | l2 => parseNumber l2

/-- Parse the members of a non-empty JSON object, accumulating fields with
`objInsert` (duplicate keys overwrite in place, as in JavaScript). -/
def parseMembers : Nat → List Char → List (String × Json) → Option (Json × List Char)
  | 0, _, _ => none
  | f + 1, l, acc =>
    match l with
    | '"' :: r =>
      (match parseStringBody (r.length + 1) r [] with
       | none => none
       | some (k, r2) =>
         match skipWS r2 with
         | ':' :: r3 =>
           (match parseVal f r3 with
            | none => none
            | some (v, r4) =>
              let acc2 := objInsert acc k v
              match skipWS r4 with
              | ',' :: r5 => parseMembers f (skipWS r5) acc2
              | '\x7d' :: r5 => some (.obj acc2, r5)
              | _ => none)
         | _ => none)
    | _ => none

/-- Parse the elements of a non-empty JSON array. -/
def parseElems : Nat → List Char → List Json → Option (Json × List Char)
  | 0, _, _ => none
  | f + 1, l, acc =>
    match parseVal f l with
    | none => none
    | some (v, r) =>
      match skipWS r with
      | ',' :: r2 => parseElems f r2 (v :: acc)
      | ']' :: r2 => some (.arr (v :: acc).reverse, r2)
      | _ => none

end

/-- Model of JavaScript `JSON.parse` on a character list: one value with
surrounding whitespace and nothing else. -/
def jsonParse (l : List Char) : Option Json :=
  match parseVal (2 * l.length + 2) l with
  | some (v, rest) => if (skipWS rest).isEmpty then some v else none
  | none => none

-- Sanity checks on the parser (concrete evaluations).
example : jsonParse "true".data = some (.bool true) := rfl
example : jsonParse " \x7b \"a\" : true \x7d ".data = some (.obj [("a", .bool true)]) := rfl
example : jsonParse "\x7b\"a\":true,\x7d".data = none := rfl
example : jsonParse "\x7b“a”:true\x7d".data = none := rfl
example : jsonParse "[true, false, null]".data = some (.arr [.bool true, .bool false, .null]) := rfl
example : jsonParse "\"a\\nb\"".data = some (.str "a\nb") := rfl
example : jsonParse "hello".data = none := rfl
example : jsonParse "\x7b\"a\":1\x7d x".data = none := rfl

/-- Whitespace class of the JavaScript regex `\s` (also the set trimmed by
`String.prototype.trim`). -/
def isRegexWS (c : Char) : Bool :=
  c = ' ' || c = '\t' || c = '\n' || c = '\r' || c = '\x0b' || c = '\x0c' ||
  c = '\u00a0' || c = '\u1680' || ('\u2000' ≤ c && c ≤ '\u200a') ||
  c = '\u2028' || c = '\u2029' || c = '\u202f' || c = '\u205f' ||
  c = '\u3000' || c = '\ufeff'

/-- Model of JavaScript `String.prototype.trim` (line 176: `text.trim()`). -/
def jsTrimStr (s : String) : String :=
  String.mk (((s.data.dropWhile isRegexWS).reverse.dropWhile isRegexWS).reverse)

/-- Does the input start with a triple-backtick marker? -/
def isTicks : List Char → Bool
  | '\x60' :: '\x60' :: '\x60' :: _ => true
  | _ => false

/-- Does the input start with the tag `json`, case-insensitively (the regex
carries the `i` flag)? -/
def jsonTagCI : List Char → Bool
  | c1 :: c2 :: c3 :: c4 :: _ =>
    c1.toLower = 'j' && c2.toLower = 's' && c3.toLower = 'o' && c4.toLower = 'n'
  | _ => false

/-- Characters before the first triple-backtick occurrence, or `none` when
there is none: the lazy capture `([\s\S]*?)` up to the closing marker. -/
def takeBeforeTicks : List Char → Option (List Char)
  | [] => none
  | c :: rest =>
    if isTicks (c :: rest) then some []
    else (takeBeforeTicks rest).map (fun t => c :: t)

/-- Text after a triple-backtick opener once the greedy optional `json`
tag (case-insensitive) and greedy `\s*` run are consumed; `rest` is the
input minus the opener's first backtick.  Neither the tag nor the
whitespace run can contain a backtick, so no closer is skipped. -/
def fenceTail (rest : List Char) : List Char :=
  (if jsonTagCI (rest.drop 2) then (rest.drop 2).drop 4 else rest.drop 2).dropWhile isRegexWS

/-- Capture group of the first match of
`/\x60\x60\x60(?:json)?\s*([\s\S]*?)\x60\x60\x60/i` (line 150), or `none` when the
regex does not match: the engine matches at the first triple-backtick
opener (if the first opener has no closer, no later opener has one
either, since any closer of a later opener closes the first too), and the
lazy capture stops at the next triple-backtick. -/
def fenceInner : List Char → Option (List Char)
  | [] => none
  | c :: rest =>
    if isTicks (c :: rest) then takeBeforeTicks (fenceTail rest)
    else fenceInner rest

/-- Index of the first occurrence of a character (JavaScript
`String.prototype.indexOf`, with `none` for `-1`). -/
def firstIdxOf (ch : Char) : List Char → Option Nat
  | [] => none
  | c :: rest => if c = ch then some 0 else (firstIdxOf ch rest).map (· + 1)

/-- Index of the last occurrence of a character (JavaScript
`String.prototype.lastIndexOf`, with `none` for `-1`). -/
def lastIdxOf (ch : Char) (l : List Char) : Option Nat :=
  (firstIdxOf ch l.reverse).map (fun i => l.length - 1 - i)

/-- Lines 154-157: the slice from the first `\x7b` to the last `\x7d`
inclusive, provided both exist and the last `\x7d` is after the first `\x7b`. -/
def braceSlice (raw : List Char) : Option (List Char) :=
  match firstIdxOf '\x7b' raw, lastIdxOf '\x7d' raw with
  | some s, some e => if s < e then some ((raw.drop s).take (e - s + 1)) else none
  | _, _ => none

/-- Failure modes of `parseModelJson`: the explicit
`Error("Model output was not valid JSON")` thrown when no brace pair is
found, and the `JSON.parse` exception propagating out of the final parse. -/
inductive ParseErr where
  | noJsonObject : ParseErr
  | invalidJson : ParseErr
deriving DecidableEq

/-- Line 151: `const raw = fenced ? fenced[1] : text` — the working text
is the fence capture when the regex matched, the full raw text otherwise. -/
def workingText (text : String) : List Char :=
  (fenceInner text.data).getD text.data

/-- Lines 145-161: try `JSON.parse` directly; otherwise strip a fenced
block (or keep the full text), slice between the first `\x7b` and the last
`\x7d`, and `JSON.parse` the slice; with no usable brace pair, throw. -/
def parseModelJson (text : String) : Except ParseErr Json :=
  match jsonParse text.data with
  | some v => .ok v
  | none =>
    match braceSlice (workingText text) with
    | some sliced =>
      (match jsonParse sliced with
       | some v => .ok v
       | none => .error .invalidJson)
    | none => .error .noJsonObject

-- Sanity checks on the normalizer's parsing stage.
example : parseModelJson "\x7b\"a\":true\x7d" = .ok (.obj [("a", .bool true)]) := rfl
example : parseModelJson "x \x7b\"a\":true\x7d y" = .ok (.obj [("a", .bool true)]) := rfl
example : parseModelJson "\x60\x60\x60json\n\x7b\"a\":true\x7d\n\x60\x60\x60" =
    .ok (.obj [("a", .bool true)]) := rfl
example : parseModelJson "hello" = .error .noJsonObject := rfl
example : parseModelJson "\x7b\"a\": true,\x7d" = .error .invalidJson := rfl

/-- Is an optional property value `null` or absent (the test of the `??=`
operator)? -/
def nullish : Option Json → Bool
  | none => true
  | some .null => true
  | some _ => false

/-- Line 183: `analysis.summary ??= ""` — assign the empty string when
the property is absent or `null`. -/
def stepSummary (fs : List (String × Json)) : List (String × Json) :=
  if nullish (jLookup fs "summary") then objInsert fs "summary" (.str "") else fs

/-- Line 184: `analysis.weaknesses = Array.isArray(analysis.weaknesses) ? analysis.weaknesses : []`. -/
def stepWeaknesses (fs : List (String × Json)) : List (String × Json) :=
  objInsert fs "weaknesses"
    (match jLookup fs "weaknesses" with
     | some (.arr xs) => .arr xs
     | _ => .arr [])

/-- Line 185: `analysis.suggestions = Array.isArray(analysis.suggestions) ? analysis.suggestions : []`. -/
def stepSuggestions (fs : List (String × Json)) : List (String × Json) :=
  objInsert fs "suggestions"
    (match jLookup fs "suggestions" with
     | some (.arr xs) => .arr xs
     | _ => .arr [])

/-- Line 186: `analysis.encouragement ??= ""`. -/
def stepEncouragement (fs : List (String × Json)) : List (String × Json) :=
  if nullish (jLookup fs "encouragement") then objInsert fs "encouragement" (.str "") else fs

/-- Lines 183-186 applied in order to the fields of a parsed object. -/
def coerceFields (fs : List (String × Json)) : List (String × Json) :=
  stepEncouragement (stepSuggestions (stepWeaknesses (stepSummary fs)))

/-- Lines 183-186 together with the serialization of line 188, as the
value observable in the response.  On `null`, `analysis.summary ??= ""`
throws a TypeError (`none`).  On a primitive (boolean, number, string),
property assignment in non-strict mode is a silent no-op, so the value is
emitted unchanged.  On an array, the assignments create named properties
on the array object, which `res.json`'s JSON serialization drops, so the
emitted value is again the unchanged array. -/
def coerceShape : Json → Option Json
  | .null => none
  | .obj fs => some (.obj (coerceFields fs))
  | .bool b => some (.bool b)
  | .num q => some (.num q)
  | .str s => some (.str s)
  | .arr xs => some (.arr xs)

/-- Modelled from the spec: the AnalysisResult invariant of section 3 —
summary and encouragement are strings, weaknesses and suggestions are
sequences of text.  This definition follows the spec's words and is
compared against the behaviour of the code. -/
def specAnalysisInvariant : Json → Bool
  | .obj fs =>
    (match jLookup fs "summary" with | some (.str _) => true | _ => false) &&
    (match jLookup fs "weaknesses" with
     | some (.arr xs) => xs.all (fun x => match x with | .str _ => true | _ => false)
     | _ => false) &&
    (match jLookup fs "suggestions" with
     | some (.arr xs) => xs.all (fun x => match x with | .str _ => true | _ => false)
     | _ => false) &&
    (match jLookup fs "encouragement" with | some (.str _) => true | _ => false)
  | _ => false

/-- Outcome of the response-normalization stage of the handler (lines
174-188): a server error (500) when parsing or coercion throws, or the
emitted `analysis` value. -/
inductive RespondOutcome where
  | serverError : RespondOutcome
  | okAnalysis : Json → RespondOutcome

/-- Lines 172-188: trim the model text, run `parseModelJson`, apply the
shape coercion, and respond with the analysis; any exception is caught and
surfaced as a 500. -/
def respondFromModelText (text : String) : RespondOutcome :=
  match parseModelJson (jsTrimStr text) with
  | .error _ => .serverError
  | .ok a =>
    match coerceShape a with
    | none => .serverError
    | some a2 => .okAnalysis a2

-- Sanity checks on coercion.
example : respondFromModelText "true" = .okAnalysis (.bool true) := rfl
example : respondFromModelText "null" = .serverError := rfl
example : respondFromModelText "\x7b\"summary\":\"ok\"\x7d" =
    .okAnalysis (.obj [("summary", .str "ok"), ("weaknesses", .arr []),
      ("suggestions", .arr []), ("encouragement", .str "")]) := rfl

/-- An index value read from a wrong-answer record: absent (`undefined`),
`null`, or a number. -/
inductive JsIdx where
  | undef : JsIdx
  | null : JsIdx
  | int : Int → JsIdx

/-- One entry of an `options` array: an object whose `text` property may be
absent (rendering as the literal text `undefined`). -/
structure QuizOption where
  text : Option String

/-- One record of the `wrongAnswers` array, with every sub-field optional
as arbitrary JSON payloads make them. -/
structure WrongAnswerItem where
  questionText : Option String
  options : Option (List QuizOption)
  selectedIndex : JsIdx
  correctIndex : JsIdx
  explanation : Option String

/-- Template-literal conversion of a possibly absent string:
`undefined` interpolates as the literal text `undefined`. -/
def dispOptStr (o : Option String) : String := o.getD "undefined"

/-- JavaScript element access `opts[i]`: a value only for an integer index
in range; `undefined` (here `none`) for `undefined`, `null` or
out-of-range indexes, making a subsequent `.text` read throw. -/
def listAt (opts : List QuizOption) : JsIdx → Option QuizOption
  | .int n =>
    if h : 0 ≤ n ∧ n < opts.length then some (opts.get ⟨n.toNat, by omega⟩) else none
  | _ => none

/-- Line 114: `item.selectedIndex !== null ? item.options[item.selectedIndex].text : 'উত্তর দেননি'`.
`none` models a thrown TypeError (reading `[...]` of an absent `options`
or `.text` of `undefined`). -/
def selectedText (item : WrongAnswerItem) : Option String :=
  match item.selectedIndex with
  | .null => some "উত্তর দেননি"
  | i => do
    let opts ← item.options
    let o ← listAt opts i
    some (dispOptStr o.text)

/-- Line 115: `item.options[item.correctIndex].text`; `none` models a
thrown TypeError. -/
def correctText (item : WrongAnswerItem) : Option String := do
  let opts ← item.options
  let o ← listAt opts item.correctIndex
  some (dispOptStr o.text)

/-- Line 116: `item.explanation || 'কোন ব্যাখ্যা নেই।'` — any falsy
explanation (absent or the empty string) falls back to the marker. -/
def explanationText (item : WrongAnswerItem) : String :=
  match item.explanation with
  | none => "কোন ব্যাখ্যা নেই।"
  | some s => if s = "" then "কোন ব্যাখ্যা নেই।" else s

/-- Lines 112-116: the template for one numbered wrong-answer block;
`none` models a thrown TypeError from an index lookup. -/
def renderItem (index : Nat) (item : WrongAnswerItem) : Option String := do
  let sel ← selectedText item
  let cor ← correctText item
  some ("\n      " ++ toString (index + 1) ++ ". প্রশ্ন: " ++ dispOptStr item.questionText ++
    "\n      আপনার উত্তর: " ++ sel ++
    "\n      সঠিক উত্তর: " ++ cor ++
    "\n      সঠিক উত্তরের ব্যাখ্যা: " ++ explanationText item)

/-- The `map` callback applied along the list with its running index. -/
def renderAll (index : Nat) : List WrongAnswerItem → Option (List String)
  | [] => some []
  | item :: rest => do
    let s ← renderItem index item
    let ss ← renderAll (index + 1) rest
    some (s :: ss)

/-- Lines 111-117: `wrongAnswers.map(...).join('\n\n')`; `none` models the
whole render aborting because one callback threw. -/
def wrongAnswersText (items : List WrongAnswerItem) : Option String :=
  (renderAll 0 items).map (String.intercalate "\n\n")

/-- Truthiness of a JSON value (`!v` in JavaScript is the negation):
`null`, `false`, `0` and the empty string are falsy. -/
def jsFalsy : Json → Bool
  | .null => true
  | .bool b => !b
  | .num q => q = 0
  | .str s => s = ""
  | .arr _ => false
  | .obj _ => false

mutual

/-- Template-literal conversion `String(v)` of a JSON value.  Non-integer
number formatting is abstracted (no claim depends on it); an array
displays as its elements joined by commas with `null` elements as the
empty string, an object as `[object Object]`. -/
def jsDisplay : Json → String
  | .null => "null"
  | .bool b => cond b "true" "false"
  | .num q => if q.den = 1 then toString q.num else toString q
  | .str s => s
  | .arr xs => String.intercalate "," (jsDisplayElems xs)
  | .obj _ => "[object Object]"

/-- Display of array elements under `Array.prototype.join`: `null`
elements become the empty string. -/
def jsDisplayElems : List Json → List String
  | [] => []
  | .null :: xs => "" :: jsDisplayElems xs
  | x :: xs => jsDisplay x :: jsDisplayElems xs

end

/-- Interpolation of a request-body field into the template: an absent
field interpolates as the literal text `undefined`. -/
def dispField (o : Option Json) : String := (o.map jsDisplay).getD "undefined"

/-- The fixed sentence used when `wrongAnswers` is empty (line 130). -/
def allCorrectSentence : String := "শিক্ষার্থী সব প্রশ্নের সঠিক উত্তর দিয়েছে।"

/-- Lines 119-130 of the template, up to and including the indentation
before the wrong-answers ternary. -/
def promptPre (subj chap tq aq : Option Json) (waLen : Nat) : String :=
  "\n    আপনি একজন অভিজ্ঞ শিক্ষক। আপনার কাজ হলো একজন শিক্ষার্থীর পরীক্ষার ফলাফলের উপর ভিত্তি করে একটি বিস্তারিত বিশ্লেষণ ও পরামর্শ তৈরি করা।\n\n    পরীক্ষার বিষয়: " ++
  dispField subj ++ "\n    অধ্যায়: " ++ dispField chap ++ "\n    মোট প্রশ্ন: " ++
  dispField tq ++ "\n    উত্তর দেওয়া প্রশ্ন: " ++ dispField aq ++
  "\n    ভুল উত্তর বা উত্তর না দেওয়া প্রশ্ন: " ++ toString waLen ++
  "\n\n    এখানে সেই প্রশ্নগুলো এবং তাদের সঠিক উত্তরের সাথে শিক্ষার্থীর উত্তর দেওয়া হলো, যেগুলোতে সে ভুল করেছে অথবা উত্তর দেয়নি:\n\n    "

/-- Lines 131-142 of the template, after the wrong-answers ternary. -/
def promptPost : String :=
  "\n\n    আপনার বিশ্লেষণটি নিম্নলিখিত কাঠামোতে বাংলায় প্রদান করুন। কোনো অতিরিক্ত কথা লিখবেন না, শুধুমাত্র JSON ফরম্যাটে আউটপুট দিন।\n\n    \x7b\n      \"summary\": \"এই পরীক্ষার সংক্ষিপ্ত সারসংক্ষেপ\",\n      \"weaknesses\": [],\n      \"suggestions\": [],\n      \"encouragement\": \"শিক্ষার্থীকে উৎসাহিত করার জন্য একটি ছোট বার্তা\"\n    \x7d\n\n    যদি কোনো ভুল উত্তর না থাকে, তবে weaknesses, suggestions অ্যারে গুলোকে খালি রাখবেন।\n  "

/-- Lines 119-142: the full prompt template, with the ternary
`wrongAnswers.length > 0 ? wrongAnswersText : '...'` in the middle. -/
def buildPrompt (subj chap tq aq : Option Json) (wa : List WrongAnswerItem)
    (waText : String) : String :=
  promptPre subj chap tq aq wa.length ++
  (if wa.length > 0 then waText else allCorrectSentence) ++
  promptPost

/-- The request body after `express.json` and the destructuring of line
105: each scalar field is a JSON value or absent; `wrongAnswers` is a
sequence of records or absent (in which case the destructuring default
`= []` applies). -/
structure ReqBody where
  subject : Option Json
  chapter : Option Json
  totalQuestions : Option Json
  answeredQuestions : Option Json
  wrongAnswers : Option (List WrongAnswerItem)

/-- Truthiness of a possibly absent field (`!x` is true for an absent
field). -/
def fieldFalsy : Option Json → Bool
  | none => true
  | some v => jsFalsy v

/-- Line 107: `!subject || !chapter || totalQuestions === undefined || answeredQuestions === undefined`. -/
def requiredMissing (b : ReqBody) : Bool :=
  fieldFalsy b.subject || fieldFalsy b.chapter ||
  b.totalQuestions.isNone || b.answeredQuestions.isNone

/-- The fixed 400 message of line 108. -/
def requiredMsg : String :=
  "Subject, chapter, total questions, and answered questions are required."

/-- How far the handler gets before the external model call: a 400
response with no model call, an uncaught TypeError thrown while rendering
`wrongAnswersText` (before the `try` block), or the external model invoked
with the built prompt. -/
inductive HandlerOutcome where
  | badRequest : String → HandlerOutcome
  | renderThrow : HandlerOutcome
  | callModel : String → HandlerOutcome

/-- Lines 104-170: validate, render the wrong-answer list, build the
prompt, and (only then) call the external model. -/
def handleRequest (b : ReqBody) : HandlerOutcome :=
  if requiredMissing b then .badRequest requiredMsg
  else
    let wa := b.wrongAnswers.getD []
    match wrongAnswersText wa with
    | none => .renderThrow
    | some waText =>
      .callModel (buildPrompt b.subject b.chapter b.totalQuestions b.answeredQuestions wa waText)

-- Sanity checks on the handler.
example : handleRequest ⟨none, some (.str "c"), some (.num 3), some (.num 3), none⟩ =
    .badRequest requiredMsg := rfl
example : wrongAnswersText [⟨some "Q", some [], .int 0, .int 0, none⟩] = none := rfl
example : wrongAnswersText [⟨some "Q", some [⟨some "A"⟩], .null, .int 0, none⟩] =
    some "\n      1. প্রশ্ন: Q\n      আপনার উত্তর: উত্তর দেননি\n      সঠিক উত্তর: A\n      সঠিক উত্তরের ব্যাখ্যা: কোন ব্যাখ্যা নেই।" := rfl

/-- Is a `JsIdx` an integer index within `[0, len)`?  Exactly these
element accesses yield an element rather than `undefined`. -/
def idxInRange (len : Nat) : JsIdx → Bool
  | .int n => decide (0 ≤ n ∧ n < len)
  | _ => false

/-- A wrong-answer record whose rendering cannot throw: `options` present,
`selectedIndex` either `null` or in range, and `correctIndex` in range. -/
def itemSafe (it : WrongAnswerItem) : Bool :=
  match it.options with
  | none => false
  | some opts =>
    (match it.selectedIndex with
     | .null => true
     | i => idxInRange opts.length i) && idxInRange opts.length it.correctIndex

/-! ## Helper lemmas -/

theorem jLookup_objInsert_self (fs : List (String × Json)) (k : String) (v : Json) :
    jLookup (objInsert fs k v) k = some v := by
  induction fs with
  | nil => simp [objInsert, jLookup]
  | cons p t ih =>
    obtain ⟨a, b⟩ := p
    by_cases hak : a = k <;> simp [objInsert, jLookup, hak, ih]

theorem jLookup_objInsert_ne (fs : List (String × Json)) (k q : String) (v : Json)
    (h : q ≠ k) : jLookup (objInsert fs k v) q = jLookup fs q := by
  have h2 : ¬(k = q) := fun e => h e.symm
  induction fs with
  | nil => simp [objInsert, jLookup, h2]
  | cons p t ih =>
    obtain ⟨a, b⟩ := p
    by_cases hak : a = k
    · subst hak
      simp [objInsert, jLookup, h2]
    · by_cases haq : a = q <;> simp [objInsert, jLookup, hak, haq, ih, h]

theorem stepSummary_lookup_ne (fs : List (String × Json)) (q : String)
    (h : q ≠ "summary") : jLookup (stepSummary fs) q = jLookup fs q := by
  unfold stepSummary
  split
  · exact jLookup_objInsert_ne fs "summary" q _ h
  · rfl

theorem stepWeaknesses_lookup_ne (fs : List (String × Json)) (q : String)
    (h : q ≠ "weaknesses") : jLookup (stepWeaknesses fs) q = jLookup fs q :=
  jLookup_objInsert_ne fs "weaknesses" q _ h

theorem stepSuggestions_lookup_ne (fs : List (String × Json)) (q : String)
    (h : q ≠ "suggestions") : jLookup (stepSuggestions fs) q = jLookup fs q :=
  jLookup_objInsert_ne fs "suggestions" q _ h

theorem stepEncouragement_lookup_ne (fs : List (String × Json)) (q : String)
    (h : q ≠ "encouragement") : jLookup (stepEncouragement fs) q = jLookup fs q := by
  unfold stepEncouragement
  split
  · exact jLookup_objInsert_ne fs "encouragement" q _ h
  · rfl

theorem stepSummary_post (fs : List (String × Json)) :
    nullish (jLookup (stepSummary fs) "summary") = false := by
  unfold stepSummary
  split
  · rw [jLookup_objInsert_self]
    rfl
  · next hn =>
    cases hl : jLookup fs "summary" with
    | none => rw [hl] at hn; exact absurd rfl hn
    | some v =>
      rw [hl] at hn
      cases v <;> first | rfl | exact absurd rfl hn

theorem stepWeaknesses_post (fs : List (String × Json)) :
    ∃ xs, jLookup (stepWeaknesses fs) "weaknesses" = some (.arr xs) := by
  unfold stepWeaknesses
  rw [jLookup_objInsert_self]
  split <;> exact ⟨_, rfl⟩

theorem stepSuggestions_post (fs : List (String × Json)) :
    ∃ xs, jLookup (stepSuggestions fs) "suggestions" = some (.arr xs) := by
  unfold stepSuggestions
  rw [jLookup_objInsert_self]
  split <;> exact ⟨_, rfl⟩

theorem stepEncouragement_post (fs : List (String × Json)) :
    nullish (jLookup (stepEncouragement fs) "encouragement") = false := by
  unfold stepEncouragement
  split
  · rw [jLookup_objInsert_self]
    rfl
  · next hn =>
    cases hl : jLookup fs "encouragement" with
    | none => rw [hl] at hn; exact absurd rfl hn
    | some v =>
      rw [hl] at hn
      cases v <;> first | rfl | exact absurd rfl hn

theorem takeBeforeTicks_sub (l t : List Char) (h : takeBeforeTicks l = some t) : t <+: l := by
  induction l generalizing t with
  | nil => exact absurd h (by simp [takeBeforeTicks])
  | cons c rest ih =>
    unfold takeBeforeTicks at h
    split at h
    · cases h
      exact List.nil_prefix
    · cases hr : takeBeforeTicks rest with
      | none => rw [hr] at h; simp at h
      | some t2 =>
        rw [hr] at h
        simp at h
        subst h
        exact List.cons_prefix_cons.mpr ⟨rfl, ih t2 hr⟩

theorem fenceTail_suffix (rest : List Char) : fenceTail rest <:+ rest := by
  unfold fenceTail
  refine List.IsSuffix.trans (List.dropWhile_suffix _) ?_
  split
  · exact List.IsSuffix.trans (List.drop_suffix _ _) (List.drop_suffix _ _)
  · exact List.drop_suffix _ _

theorem fenceInner_sub (l t : List Char) (h : fenceInner l = some t) : t <:+: l := by
  induction l with
  | nil => exact absurd h (by simp [fenceInner])
  | cons c rest ih =>
    unfold fenceInner at h
    split at h
    · have hp : t <+: fenceTail rest := takeBeforeTicks_sub _ _ h
      have hs : fenceTail rest <:+ c :: rest :=
        List.IsSuffix.trans (fenceTail_suffix rest) (List.suffix_cons c rest)
      exact hp.isInfix.trans hs.isInfix
    · exact (ih h).trans (List.suffix_cons c rest).isInfix

theorem drop_take_sub (raw : List Char) (s n : Nat) : (raw.drop s).take n <:+: raw :=
  (List.take_prefix n (raw.drop s)).isInfix.trans (List.drop_suffix s raw).isInfix

theorem braceSlice_sub (raw u : List Char) (h : braceSlice raw = some u) : u <:+: raw := by
  unfold braceSlice at h
  split at h
  · split at h
    · cases h
      exact drop_take_sub raw _ _
    · cases h
  · cases h

theorem workingText_sub (text : String) : workingText text <:+: text.data := by
  unfold workingText
  cases hf : fenceInner text.data with
  | none => exact List.infix_rfl
  | some t => exact fenceInner_sub _ _ hf

theorem listAt_of_inRange (opts : List QuizOption) (i : JsIdx)
    (h : idxInRange opts.length i = true) : ∃ o, listAt opts i = some o := by
  cases i with
  | int n =>
    have h2 : 0 ≤ n ∧ n < opts.length := of_decide_eq_true h
    have he : listAt opts (JsIdx.int n) = some (opts.get ⟨n.toNat, by omega⟩) := by
      simp [listAt, h2]
    exact ⟨_, he⟩
  | undef => exact absurd h (by simp [idxInRange])
  | null => exact absurd h (by simp [idxInRange])

theorem renderItem_total (i : Nat) (it : WrongAnswerItem) (h : itemSafe it = true) :
    (renderItem i it).isSome = true := by
  unfold itemSafe at h
  cases hopts : it.options with
  | none => rw [hopts] at h; cases h
  | some opts =>
    rw [hopts] at h
    rw [Bool.and_eq_true] at h
    obtain ⟨hsel, hcor⟩ := h
    obtain ⟨oc, hoc⟩ := listAt_of_inRange opts it.correctIndex hcor
    have hct : correctText it = some (dispOptStr oc.text) := by
      simp [correctText, hopts, hoc]
    cases hsi : it.selectedIndex with
    | null =>
      simp [renderItem, selectedText, hsi, hct]
    | undef =>
      rw [hsi] at hsel
      exact absurd hsel (by simp [idxInRange])
    | int n =>
      rw [hsi] at hsel
      obtain ⟨os, hos⟩ := listAt_of_inRange opts (.int n) hsel
      simp [renderItem, selectedText, hsi, hopts, hos, hct]

theorem renderAll_total (items : List WrongAnswerItem)
    (h : ∀ it ∈ items, itemSafe it = true) :
    ∀ i, ∃ ss, renderAll i items = some ss := by
  induction items with
  | nil => exact fun _ => ⟨[], rfl⟩
  | cons a t ih =>
    intro i
    obtain ⟨s, hs⟩ := Option.isSome_iff_exists.mp (renderItem_total i a (h a (List.mem_cons_self a t)))
    obtain ⟨ss, hss⟩ := ih (fun it hit => h it (List.mem_cons_of_mem a hit)) (i + 1)
    exact ⟨s :: ss, by simp [renderAll, hs, hss]⟩

/-! ## Claim theorems -/

/-- C1 (counterexample): the parsing stage succeeds on the raw text `true`,
yet the emitted value is the bare boolean `true` — it is not replaced by an
empty object and does not satisfy the AnalysisResult invariant; and on the
raw text `null` the coercion itself throws (surfaced as a server error), so
the coercion can fail. -/
theorem c1_nonObject_counterexample :
    respondFromModelText "true" = .okAnalysis (.bool true) ∧
    specAnalysisInvariant (.bool true) = false ∧
    respondFromModelText "null" = .serverError :=
  ⟨rfl, rfl, rfl⟩

/-- C1 (amended): shape coercion never substitutes an empty object.  For a
parsed object it guarantees only that `weaknesses` and `suggestions` are
arrays and that `summary` and `encouragement` are present and non-null
(not necessarily strings); a parsed `null` makes the coercion throw, and
every other non-object parsed value is emitted unchanged. -/
theorem c1_coercion_object_only :
    (∀ fs, nullish (jLookup (coerceFields fs) "summary") = false ∧
      (∃ xs, jLookup (coerceFields fs) "weaknesses" = some (.arr xs)) ∧
      (∃ xs, jLookup (coerceFields fs) "suggestions" = some (.arr xs)) ∧
      nullish (jLookup (coerceFields fs) "encouragement") = false) ∧
    coerceShape .null = none ∧
    (∀ b, coerceShape (.bool b) = some (.bool b)) ∧
    (∀ q, coerceShape (.num q) = some (.num q)) ∧
    (∀ s, coerceShape (.str s) = some (.str s)) ∧
    (∀ xs, coerceShape (.arr xs) = some (.arr xs)) := by
  refine ⟨?_, rfl, fun _ => rfl, fun _ => rfl, fun _ => rfl, fun _ => rfl⟩
  intro fs
  refine ⟨?_, ?_, ?_, ?_⟩
  · rw [coerceFields, stepEncouragement_lookup_ne _ _ (by decide),
      stepSuggestions_lookup_ne _ _ (by decide), stepWeaknesses_lookup_ne _ _ (by decide)]
    exact stepSummary_post fs
  · obtain ⟨xs, hxs⟩ := stepWeaknesses_post (stepSummary fs)
    refine ⟨xs, ?_⟩
    rw [coerceFields, stepEncouragement_lookup_ne _ _ (by decide),
      stepSuggestions_lookup_ne _ _ (by decide)]
    exact hxs
  · obtain ⟨xs, hxs⟩ := stepSuggestions_post (stepWeaknesses (stepSummary fs))
    refine ⟨xs, ?_⟩
    rw [coerceFields, stepEncouragement_lookup_ne _ _ (by decide)]
    exact hxs
  · rw [coerceFields]
    exact stepEncouragement_post _

/-- C2 (counterexample): an otherwise valid JSON object written with smart
quotes is not repaired — the Normalizer fails with the propagated
`JSON.parse` error — while the same text with ASCII quotes parses fine. -/
theorem c2_smartQuotes_counterexample :
    parseModelJson "\x7b“summary”: “ok”\x7d" = .error .invalidJson ∧
    jsonParse "\x7b\"summary\": \"ok\"\x7d".data = some (.obj [("summary", .str "ok")]) :=
  ⟨rfl, rfl⟩

/-- C2 (amended): the Normalizer performs no quote normalization at all:
any value it returns is obtained by strict JSON parsing of a verbatim
contiguous substring of the input (the whole text, or the brace slice of
the fence capture or full text), so smart quotes are never rewritten to
ASCII quotes. -/
theorem c2_no_normalization_verbatim_substring (s : String) (v : Json)
    (h : parseModelJson s = .ok v) :
    ∃ u : List Char, u <:+: s.data ∧ jsonParse u = some v := by
  unfold parseModelJson at h
  split at h
  · next w hw =>
    cases h
    exact ⟨s.data, List.infix_rfl, hw⟩
  · next =>
    split at h
    · next sliced hb =>
      split at h
      · next w hj =>
        cases h
        exact ⟨sliced, (braceSlice_sub _ _ hb).trans (workingText_sub s), hj⟩
      · cases h
    · cases h

/-- C2 (witness for the amended theorem at a concrete input). -/
theorem c2_no_normalization_verbatim_substring_witness :
    ∃ u : List Char, u <:+: "x \x7b\"a\":true\x7d y".data ∧
      jsonParse u = some (.obj [("a", .bool true)]) :=
  c2_no_normalization_verbatim_substring "x \x7b\"a\":true\x7d y" (.obj [("a", .bool true)]) rfl

/-- C3 (counterexample): a trailing comma before `\x7d` is not removed — the
Normalizer fails with the propagated `JSON.parse` error — while the same
text without the comma parses fine. -/
theorem c3_trailingComma_counterexample :
    parseModelJson "\x7b\"a\": true,\x7d" = .error .invalidJson ∧
    jsonParse "\x7b\"a\": true\x7d".data = some (.obj [("a", .bool true)]) :=
  ⟨rfl, rfl⟩

/-- C3 (amended): the Normalizer performs no trailing-comma repair: a JSON
object that is valid except for one trailing comma before a closing `\x7d`
or `]` fails with a ParseError, whether bare or inside a fenced block. -/
theorem c3_trailingComma_not_repaired :
    parseModelJson "\x7b\"summary\": \"ok\",\x7d" = .error .invalidJson ∧
    parseModelJson "\x60\x60\x60json\n\x7b\"summary\": \"ok\",\x7d\n\x60\x60\x60" = .error .invalidJson ∧
    parseModelJson "\x7b\"weaknesses\": [\"a\",]\x7d" = .error .invalidJson :=
  ⟨rfl, rfl, rfl⟩

/-- C4 (counterexample): a wrong-answer record with an out-of-range
`selectedIndex`/`correctIndex` (empty `options`), or with `options`
absent, makes the renderer throw a TypeError — there is no
"unknown option" marker — so the whole prompt render aborts. -/
theorem c4_render_throws_counterexample :
    wrongAnswersText [⟨some "Q", some [], .int 0, .int 0, none⟩] = none ∧
    wrongAnswersText [⟨some "Q", none, .null, .int 0, some "e"⟩] = none :=
  ⟨rfl, rfl⟩

/-- C4 (amended): the renderer substitutes markers only for a `null`
`selectedIndex` ("did not answer") and a falsy `explanation`
("no explanation"); it cannot throw exactly when every record has
`options` present, `selectedIndex` null or in range, and `correctIndex`
in range. -/
theorem c4_render_safe_items_total (items : List WrongAnswerItem)
    (h : ∀ it ∈ items, itemSafe it = true) :
    (wrongAnswersText items).isSome = true ∧
    (∀ it : WrongAnswerItem, it.selectedIndex = .null →
      selectedText it = some "উত্তর দেননি") ∧
    (∀ it : WrongAnswerItem, it.explanation = none →
      explanationText it = "কোন ব্যাখ্যা নেই।") := by
  refine ⟨?_, ?_, ?_⟩
  · obtain ⟨ss, hss⟩ := renderAll_total items h 0
    simp [wrongAnswersText, hss]
  · intro it hit
    simp [selectedText, hit]
  · intro it hit
    simp [explanationText, hit]

/-- C4 (witness for the amended theorem at a concrete input). -/
theorem c4_render_safe_items_total_witness :
    (wrongAnswersText [⟨none, some [⟨some "A"⟩, ⟨none⟩], JsIdx.null, JsIdx.int 1, none⟩]).isSome
      = true :=
  (c4_render_safe_items_total _ (by
    intro it hit
    simp only [List.mem_singleton] at hit
    subst hit
    rfl)).1

/-- C5 (counterexample): the input `true` contains no `\x7b`...`\x7d` pair at
all, yet the Normalizer does not fail — the direct-parse step accepts it
and returns the bare boolean. -/
theorem c5_noBraces_success_counterexample :
    firstIdxOf '\x7b' "true".data = none ∧
    parseModelJson "true" = .ok (.bool true) :=
  ⟨rfl, rfl⟩

/-- C5 (amended): for every input that does not parse directly as JSON and
whose working text after fence extraction has no usable `\x7b`...`\x7d` pair,
the Normalizer fails with the "no JSON object found" ParseError and
returns no value at all. -/
theorem c5_noBraces_noDirectParse_fails (s : String)
    (h1 : jsonParse s.data = none) (h2 : braceSlice (workingText s) = none) :
    parseModelJson s = .error .noJsonObject := by
  simp [parseModelJson, h1, h2]

/-- C5 (witness for the amended theorem at a concrete input). -/
theorem c5_noBraces_noDirectParse_fails_witness :
    parseModelJson "hello" = .error .noJsonObject :=
  c5_noBraces_noDirectParse_fails "hello" rfl rfl

/-- C6 (counterexample): a fenced block whose interior is valid JSON but
not an object (`true`) is extracted yet fails with ParseError, because the
brace slice finds nothing — so "parses successfully whenever the interior
is valid JSON" does not hold. -/
theorem c6_fence_nonObject_counterexample :
    fenceInner "\x60\x60\x60json\ntrue\n\x60\x60\x60".data = some "true\n".data ∧
    jsonParse "true\n".data = some (.bool true) ∧
    parseModelJson "\x60\x60\x60json\ntrue\n\x60\x60\x60" = .error .noJsonObject :=
  ⟨rfl, rfl, rfl⟩

/-- C6 (amended): when direct parsing fails and a fenced block is present,
its capture becomes the working text, and the Normalizer succeeds exactly
with the value of the brace slice of that capture — in particular it
succeeds whenever the interior is a valid JSON object, but not for valid
non-object JSON interiors. -/
theorem c6_fence_extraction (s : String) (t u : List Char) (v : Json)
    (h1 : jsonParse s.data = none) (h2 : fenceInner s.data = some t)
    (h3 : braceSlice t = some u) (h4 : jsonParse u = some v) :
    workingText s = t ∧ parseModelJson s = .ok v := by
  have hw : workingText s = t := by simp [workingText, h2]
  refine ⟨hw, ?_⟩
  simp [parseModelJson, h1, hw, h3, h4]

/-- C6 (witness for the amended theorem at a concrete input). -/
theorem c6_fence_extraction_witness :
    workingText "\x60\x60\x60json\n\x7b\"a\":true\x7d\n\x60\x60\x60" = "\x7b\"a\":true\x7d\n".data ∧
    parseModelJson "\x60\x60\x60json\n\x7b\"a\":true\x7d\n\x60\x60\x60" = .ok (.obj [("a", .bool true)]) :=
  c6_fence_extraction _ _ _ _ rfl rfl rfl rfl

/-- C7: a request body missing any of `subject`, `chapter`,
`totalQuestions` or `answeredQuestions` is answered with the fixed 400
message, and the external model is never called (the handler returns
before the model-call stage). -/
theorem c7_missing_required_rejects (b : ReqBody)
    (h : b.subject = none ∨ b.chapter = none ∨
      b.totalQuestions = none ∨ b.answeredQuestions = none) :
    handleRequest b = .badRequest requiredMsg := by
  have hm : requiredMissing b = true := by
    rcases h with h | h | h | h <;> simp [requiredMissing, fieldFalsy, h]
  simp [handleRequest, hm]

/-- C7 (witness at a concrete body with `subject` missing). -/
theorem c7_missing_required_rejects_witness :
    handleRequest ⟨none, some (.str "Algebra"), some (.num 5), some (.num 5), none⟩ =
      .badRequest requiredMsg :=
  c7_missing_required_rejects _ (Or.inl rfl)

/-- C8: a request body that passes validation but omits `wrongAnswers`
proceeds normally with the empty list: the model is called with the prompt
whose middle section is the fixed "answered everything correctly"
sentence. -/
theorem c8_wrongAnswers_defaults_empty (b : ReqBody)
    (h1 : requiredMissing b = false) (h2 : b.wrongAnswers = none) :
    handleRequest b =
      .callModel (promptPre b.subject b.chapter b.totalQuestions b.answeredQuestions 0 ++
        allCorrectSentence ++ promptPost) := by
  simp [handleRequest, h1, h2, wrongAnswersText, renderAll, buildPrompt]

/-- C8 (witness at a concrete body without `wrongAnswers`). -/
theorem c8_wrongAnswers_defaults_empty_witness :
    handleRequest ⟨some (.str "Math"), some (.str "Algebra"), some (.num 5), some (.num 5), none⟩ =
      .callModel (promptPre (some (.str "Math")) (some (.str "Algebra")) (some (.num 5))
        (some (.num 5)) 0 ++ allCorrectSentence ++ promptPost) :=
  c8_wrongAnswers_defaults_empty _ rfl rfl

/-- C9: validation is by truthiness for the string fields and by
`=== undefined` for the counts: an empty-string `subject` or `chapter` is
rejected with the same fixed 400 message as a missing field, while `null`
counts pass validation and the handler proceeds past the 400 stage. -/
theorem c9_truthiness_validation :
    (∀ b : ReqBody, b.subject = some (.str "") →
      handleRequest b = .badRequest requiredMsg) ∧
    (∀ b : ReqBody, b.chapter = some (.str "") →
      handleRequest b = .badRequest requiredMsg) ∧
    (∀ b : ReqBody, fieldFalsy b.subject = false → fieldFalsy b.chapter = false →
      b.totalQuestions = some .null → b.answeredQuestions = some .null →
      requiredMissing b = false ∧ ∀ m, handleRequest b ≠ .badRequest m) := by
  refine ⟨?_, ?_, ?_⟩
  · intro b h
    have hm : requiredMissing b = true := by simp [requiredMissing, fieldFalsy, jsFalsy, h]
    simp [handleRequest, hm]
  · intro b h
    have hm : requiredMissing b = true := by simp [requiredMissing, fieldFalsy, jsFalsy, h]
    simp [handleRequest, hm]
  · intro b h1 h2 h3 h4
    have hm : requiredMissing b = false := by simp [requiredMissing, h1, h2, h3, h4]
    refine ⟨hm, ?_⟩
    intro m
    simp only [handleRequest, hm, Bool.false_eq_true, if_false]
    cases hw : wrongAnswersText (b.wrongAnswers.getD []) <;> simp [hw]

/-- C9 (witness: empty-string `subject` rejected; `null` counts pass
validation). -/
theorem c9_truthiness_validation_witness :
    handleRequest ⟨some (.str ""), some (.str "Algebra"), some (.num 5), some (.num 5), none⟩ =
      .badRequest requiredMsg ∧
    requiredMissing ⟨some (.str "Math"), some (.str "Algebra"), some .null, some .null, none⟩ =
      false :=
  ⟨c9_truthiness_validation.1 _ rfl,
   (c9_truthiness_validation.2.2
     ⟨some (.str "Math"), some (.str "Algebra"), some .null, some .null, none⟩
     rfl rfl rfl rfl).1⟩

/-- C10: for an object, shape coercion touches only the four contract
fields — every other key keeps exactly its original value in the emitted
analysis — and each of the four is kept unchanged when it already has the
right kind. -/
theorem c10_coercion_frame (fs : List (String × Json)) (k : String)
    (h1 : k ≠ "summary") (h2 : k ≠ "weaknesses") (h3 : k ≠ "suggestions")
    (h4 : k ≠ "encouragement") :
    coerceShape (.obj fs) = some (.obj (coerceFields fs)) ∧
    jLookup (coerceFields fs) k = jLookup fs k ∧
    (∀ s, jLookup fs "summary" = some (.str s) →
      jLookup (coerceFields fs) "summary" = some (.str s)) ∧
    (∀ xs, jLookup fs "weaknesses" = some (.arr xs) →
      jLookup (coerceFields fs) "weaknesses" = some (.arr xs)) ∧
    (∀ xs, jLookup fs "suggestions" = some (.arr xs) →
      jLookup (coerceFields fs) "suggestions" = some (.arr xs)) ∧
    (∀ s, jLookup fs "encouragement" = some (.str s) →
      jLookup (coerceFields fs) "encouragement" = some (.str s)) := by
  refine ⟨rfl, ?_, ?_, ?_, ?_, ?_⟩
  · rw [coerceFields, stepEncouragement_lookup_ne _ _ h4, stepSuggestions_lookup_ne _ _ h3,
      stepWeaknesses_lookup_ne _ _ h2, stepSummary_lookup_ne _ _ h1]
  · intro s hs
    have e1 : stepSummary fs = fs := by simp [stepSummary, hs, nullish]
    rw [coerceFields, stepEncouragement_lookup_ne _ _ (by decide),
      stepSuggestions_lookup_ne _ _ (by decide), stepWeaknesses_lookup_ne _ _ (by decide), e1]
    exact hs
  · intro xs hx
    have e1 : jLookup (stepSummary fs) "weaknesses" = some (.arr xs) := by
      rw [stepSummary_lookup_ne _ _ (by decide)]
      exact hx
    rw [coerceFields, stepEncouragement_lookup_ne _ _ (by decide),
      stepSuggestions_lookup_ne _ _ (by decide)]
    unfold stepWeaknesses
    rw [jLookup_objInsert_self, e1]
  · intro xs hx
    have e1 : jLookup (stepWeaknesses (stepSummary fs)) "suggestions" = some (.arr xs) := by
      rw [stepWeaknesses_lookup_ne _ _ (by decide), stepSummary_lookup_ne _ _ (by decide)]
      exact hx
    rw [coerceFields, stepEncouragement_lookup_ne _ _ (by decide)]
    unfold stepSuggestions
    rw [jLookup_objInsert_self, e1]
  · intro s hs
    have e1 : jLookup (stepSuggestions (stepWeaknesses (stepSummary fs))) "encouragement" =
        some (.str s) := by
      rw [stepSuggestions_lookup_ne _ _ (by decide), stepWeaknesses_lookup_ne _ _ (by decide),
        stepSummary_lookup_ne _ _ (by decide)]
      exact hs
    rw [coerceFields]
    unfold stepEncouragement
    rw [e1]
    simp [nullish]
    exact e1

/-- C10 (witness: a fifth key `extra` survives coercion verbatim). -/
theorem c10_coercion_frame_witness :
    jLookup (coerceFields [("extra", Json.str "x"), ("summary", Json.str "ok")]) "extra" =
      some (Json.str "x") :=
  ((c10_coercion_frame [("extra", Json.str "x"), ("summary", Json.str "ok")] "extra"
    (by decide) (by decide) (by decide) (by decide)).2.1).trans rfl
